import Mathlib

/-! Verification of the GPBoost binary-classification metric layer
(src/LightGBM/metric/binary_metric.hpp) and of the latent-Gaussian
random-effects covariance engine described in the accompanying design
document.  The C++ metric code is embedded shallowly: machine doubles are
modelled by an arbitrary linear ordered field (instantiated at ℚ for
concrete evaluations and at ℝ where logarithms and exponentials are
needed), pointer-indexed loops become folds over lists, and the
Log::Fatal call becomes the error branch of an Except value. -/

variable {α : Type} [LinearOrderedField α]

/-- Shallow model of the GPBoost REModel as seen from the metric layer.
Only the Predict entry point invoked inside BinaryMetric::Eval is
represented; it is abstracted as a map from the current cumulative
training-score vector (passed as the offset argument in the C++ call)
to response-scale predictions with the random-effect contribution
folded in. -/
structure REModel (α : Type) where
  Predict : List α → List α

/-- Shallow model of the ObjectiveFunction interface used by
BinaryMetric::Eval: the HasGPModel and UseGPModelForValidation flags,
the attached REModel returned by GetGPModel, and the score-to-probability
transformation ConvertOutput. -/
structure ObjectiveFunction (α : Type) where
  HasGPModel : Bool
  UseGPModelForValidation : Bool
  GetGPModel : REModel α
  ConvertOutput : α → α

/-- State of a BinaryMetric after Init: the labels, the optional weights,
the cached sum of weights, and whether this metric instance scores the
training fold (metric_for_train_data_). -/
structure BinaryMetricState (α : Type) where
  label : List α
  weights : Option (List α)
  sum_weights : α
  metric_for_train_data : Bool

/-- Embedding of BinaryMetric::Init: stores label and weights and computes
sum_weights_, which is the data count when no weights are given and the sum
of the weights otherwise. -/
def BinaryMetric.Init (label : List α) (weights : Option (List α))
    (metric_for_train_data : Bool) : BinaryMetricState α :=
  ⟨label, weights,
    match weights with
    | none => (label.length : α)
    | some w => w.sum,
    metric_for_train_data⟩

/-- Message of the Log::Fatal call in BinaryMetric::Eval (apostrophes of the
C++ text elided). -/
def trainGPValidationMessage : String :=
  "Cannot use the option use_gp_model_for_validation = true for calculating the training data loss"

/-- Embedding of BinaryMetric::Eval.  The four code paths of the C++
function are mirrored exactly: no objective (raw scores, weighted or not),
objective with weights (ConvertOutput path), and objective without weights,
which either routes the scores through REModel::Predict (after the fatal
training-fold configuration check) when the objective has a GP model and
UseGPModelForValidation holds, or through ConvertOutput otherwise.
Log::Fatal is modelled as Except.error. -/
def BinaryMetric.Eval (LossOnPoint : α → α → α) (m : BinaryMetricState α)
    (score : List α) (objective : Option (ObjectiveFunction α)) :
    Except String (List α) :=
  match objective with
  | none =>
    match m.weights with
    | none =>
        Except.ok [(List.zipWith LossOnPoint m.label score).sum / m.sum_weights]
    | some w =>
        Except.ok [(List.zipWith3 (fun l s wi => LossOnPoint l s * wi)
          m.label score w).sum / m.sum_weights]
  | some obj =>
    match m.weights with
    | none =>
        if obj.HasGPModel && obj.UseGPModelForValidation then
          if m.metric_for_train_data then
            Except.error trainGPValidationMessage
          else
            let re_prop_pred := obj.GetGPModel.Predict score
            Except.ok [(List.zipWith LossOnPoint m.label re_prop_pred).sum / m.sum_weights]
        else
          Except.ok [(List.zipWith (fun l s => LossOnPoint l (obj.ConvertOutput s))
            m.label score).sum / m.sum_weights]
    | some w =>
        Except.ok [(List.zipWith3 (fun l s wi => LossOnPoint l (obj.ConvertOutput s) * wi)
          m.label score w).sum / m.sum_weights]

/-- Claim C1: with a GP model attached to the objective and
use_gp_model_for_validation enabled, evaluating the metric on the training
fold (metric_for_train_data_ = true) hits the fatal configuration error
immediately and no metric value is returned. -/
theorem C1_train_fold_gp_validation_is_fatal (LossOnPoint : α → α → α)
    (label score : List α) (re : REModel α) (conv : α → α) :
    BinaryMetric.Eval LossOnPoint (BinaryMetric.Init label none true) score
      (some ⟨true, true, re, conv⟩) = Except.error trainGPValidationMessage := rfl

/-- Claim C2: on an unweighted validation fold with a GP-model objective and
UseGPModelForValidation set, Eval returns (1/num_data) times the summed
pointwise losses taken at the REModel predictions computed with the current
score vector as offset, and the result never depends on ConvertOutput. -/
theorem C2_gp_validation_uses_re_model_predictions (LossOnPoint : α → α → α)
    (label score : List α) (re : REModel α) (conv conv2 : α → α) :
    BinaryMetric.Eval LossOnPoint (BinaryMetric.Init label none false) score
        (some ⟨true, true, re, conv⟩) =
      Except.ok [(1 / (label.length : α)) *
        (List.zipWith LossOnPoint label (re.Predict score)).sum] ∧
    BinaryMetric.Eval LossOnPoint (BinaryMetric.Init label none false) score
        (some ⟨true, true, re, conv⟩) =
      BinaryMetric.Eval LossOnPoint (BinaryMetric.Init label none false) score
        (some ⟨true, true, re, conv2⟩) := by
  constructor
  · have h : (1 / (label.length : α)) *
        (List.zipWith LossOnPoint label (re.Predict score)).sum =
        (List.zipWith LossOnPoint label (re.Predict score)).sum / (label.length : α) := by
      rw [one_div, inv_mul_eq_div]
    rw [h]
    rfl
  · rfl

/-- Claim C3: with sample weights present and any objective supplied, Eval
always takes the weighted ConvertOutput path: it returns the weighted sum of
pointwise losses at the converted scores divided by the weight sum, never
consults the REModel, and never performs the training-fold configuration
check, whatever the values of HasGPModel, UseGPModelForValidation and
metric_for_train_data_. -/
theorem C3_weighted_eval_always_converts (LossOnPoint : α → α → α)
    (label score w : List α) (g u mftd : Bool) (re re2 : REModel α) (conv : α → α) :
    BinaryMetric.Eval LossOnPoint (BinaryMetric.Init label (some w) mftd) score
        (some ⟨g, u, re, conv⟩) =
      Except.ok [(List.zipWith3 (fun l s wi => LossOnPoint l (conv s) * wi)
        label score w).sum / w.sum] ∧
    BinaryMetric.Eval LossOnPoint (BinaryMetric.Init label (some w) mftd) score
        (some ⟨g, u, re, conv⟩) =
      BinaryMetric.Eval LossOnPoint (BinaryMetric.Init label (some w) mftd) score
        (some ⟨g, u, re2, conv⟩) :=
  ⟨rfl, rfl⟩

/-- Constant kEpsilon of the LightGBM headers (value 1e-15 from
include/LightGBM/meta.h, a header not part of the excerpt), used by the
logloss guards. -/
noncomputable def kEpsilon : ℝ := 1e-15

/-- Embedding of BinaryLoglossMetric::LossOnPoint: negative log of the
predicted probability of the observed class, with the kEpsilon guards of the
C++ code (the logarithm argument is clamped below at kEpsilon). -/
noncomputable def BinaryLoglossMetric.LossOnPoint (label prob : ℝ) : ℝ :=
  if label ≤ 0 then
    if kEpsilon < 1 - prob then -Real.log (1 - prob) else -Real.log kEpsilon
  else
    if kEpsilon < prob then -Real.log prob else -Real.log kEpsilon

/-- Claim C10: for every label and every probability in [0, 1], the logloss
point value is total, non-negative and bounded by -log kEpsilon: the guards
ensure the logarithm is never taken below kEpsilon (in this real-number
embedding totality is by construction, and the bounds are proved). -/
theorem C10_logloss_total_and_bounded (label prob : ℝ)
    (h0 : 0 ≤ prob) (h1 : prob ≤ 1) :
    0 ≤ BinaryLoglossMetric.LossOnPoint label prob ∧
      BinaryLoglossMetric.LossOnPoint label prob ≤ -Real.log kEpsilon := by
  have hk0 : (0 : ℝ) < kEpsilon := by norm_num [kEpsilon]
  have hk1 : kEpsilon ≤ 1 := by norm_num [kEpsilon]
  have hlogk : Real.log kEpsilon ≤ 0 := Real.log_nonpos hk0.le hk1
  unfold BinaryLoglossMetric.LossOnPoint
  split
  · split
    · rename_i hlt
      refine ⟨?_, ?_⟩
      · have hnp : Real.log (1 - prob) ≤ 0 := Real.log_nonpos (by linarith) (by linarith)
        linarith
      · have hmono : Real.log kEpsilon ≤ Real.log (1 - prob) := Real.log_le_log hk0 hlt.le
        linarith
    · exact ⟨by linarith, le_refl _⟩
  · split
    · rename_i hlt
      refine ⟨?_, ?_⟩
      · have hnp : Real.log prob ≤ 0 := Real.log_nonpos (by linarith) h1
        linarith
      · have hmono : Real.log kEpsilon ≤ Real.log prob := Real.log_le_log hk0 hlt.le
        linarith
    · exact ⟨by linarith, le_refl _⟩

/-- Witness for C10 at label 1 and probability 1/2. -/
theorem C10_logloss_total_and_bounded_witness :
    (0 : ℝ) ≤ 1 / 2 ∧ (1 / 2 : ℝ) ≤ 1 ∧
      (0 ≤ BinaryLoglossMetric.LossOnPoint 1 (1 / 2) ∧
        BinaryLoglossMetric.LossOnPoint 1 (1 / 2) ≤ -Real.log kEpsilon) :=
  ⟨by norm_num, by norm_num,
    C10_logloss_total_and_bounded 1 (1 / 2) (by norm_num) (by norm_num)⟩

/-- Running state of the AUCMetric::Eval sweep: temporary and total sums of
positive labels, the accumulated area, the temporary sum of negative labels,
and the current score threshold. -/
structure AUCState (α : Type) where
  cur_pos : α
  sum_pos : α
  accum : α
  cur_neg : α
  threshold : α

/-- One iteration of the unweighted AUCMetric::Eval loop on a
(score, label) pair taken in descending-score order: when the score moves
past the current threshold the temporary counts are folded into the
accumulator and reset, then the pair is counted as positive or negative. -/
def AUCMetric.step (s : AUCState α) (p : α × α) : AUCState α :=
  let s1 : AUCState α :=
    if p.1 ≠ s.threshold then
      ⟨0, s.sum_pos + s.cur_pos,
        s.accum + s.cur_neg * (s.cur_pos * (1 / 2) + s.sum_pos), 0, p.1⟩
    else s
  ⟨s1.cur_pos + (if 0 < p.2 then 1 else 0), s1.sum_pos, s1.accum,
    s1.cur_neg + (if p.2 ≤ 0 then 1 else 0), s1.threshold⟩

/-- One iteration of the weighted AUCMetric::Eval loop on a
(score, (label, weight)) triple: as the unweighted step, with the positive
and negative counts scaled by the sample weight. -/
def AUCMetric.stepWeighted (s : AUCState α) (p : α × α × α) : AUCState α :=
  let s1 : AUCState α :=
    if p.1 ≠ s.threshold then
      ⟨0, s.sum_pos + s.cur_pos,
        s.accum + s.cur_neg * (s.cur_pos * (1 / 2) + s.sum_pos), 0, p.1⟩
    else s
  ⟨s1.cur_pos + (if 0 < p.2.1 then 1 else 0) * p.2.2, s1.sum_pos, s1.accum,
    s1.cur_neg + (if p.2.1 ≤ 0 then 1 else 0) * p.2.2, s1.threshold⟩

/-- Tail of AUCMetric::Eval after the data has been paired with labels (and
weights) and sorted by descending score: run the sweep from the first score
as initial threshold, fold in the last group, and normalize; when there are
no positives, or no negatives (sum of positives equals the weight sum), the
returned AUC is exactly 1. -/
def AUCMetric.EvalSweep (fold : AUCState α → AUCState α) (sum_weights : α)
    (first_score : α) : List α :=
  let final0 := fold ⟨0, 0, 0, 0, first_score⟩
  let accum := final0.accum + final0.cur_neg * (final0.cur_pos * (1 / 2) + final0.sum_pos)
  let sum_pos := final0.sum_pos + final0.cur_pos
  if 0 < sum_pos ∧ sum_pos ≠ sum_weights then
    [accum / (sum_pos * (sum_weights - sum_pos))]
  else
    [1]

/-- State of an AUCMetric after Init: labels, optional weights, and the
cached sum of weights (the data count when unweighted). -/
structure AUCMetricState (α : Type) where
  label : List α
  weights : Option (List α)
  sum_weights : α

/-- Embedding of AUCMetric::Init. -/
def AUCMetric.Init (label : List α) (weights : Option (List α)) : AUCMetricState α :=
  ⟨label, weights,
    match weights with
    | none => (label.length : α)
    | some w => w.sum⟩

/-- Embedding of AUCMetric::Eval: indices sorted by descending score are
modelled by sorting the list of (score, label) pairs (respectively
(score, (label, weight)) triples); the initial threshold is the first sorted
score (the C++ code indexes score[sorted_idx[0]], so the data is nonempty in
any defined execution; an arbitrary value 0 is used for empty data, where
the loop body never runs). -/
def AUCMetric.Eval (m : AUCMetricState α) (score : List α) : List α :=
  match m.weights with
  | none =>
    let sorted := (score.zip m.label).mergeSort (fun a b => decide (b.1 ≤ a.1))
    let first_score : α :=
      match sorted with
      | [] => 0
      | p :: _ => p.1
    AUCMetric.EvalSweep (fun s0 => sorted.foldl AUCMetric.step s0) m.sum_weights first_score
  | some w =>
    let sorted := (score.zip (m.label.zip w)).mergeSort (fun a b => decide (b.1 ≤ a.1))
    let first_score : α :=
      match sorted with
      | [] => 0
      | p :: _ => p.1
    AUCMetric.EvalSweep (fun s0 => sorted.foldl AUCMetric.stepWeighted s0) m.sum_weights first_score

/-- The unweighted sweep step adds one to sum_pos + cur_pos exactly on a
positive label. -/
theorem AUCMetric.step_sum_cur (s : AUCState α) (p : α × α) :
    (AUCMetric.step s p).sum_pos + (AUCMetric.step s p).cur_pos =
      s.sum_pos + s.cur_pos + (if 0 < p.2 then 1 else 0) := by
  by_cases h : p.1 ≠ s.threshold
  · simp only [AUCMetric.step, if_pos h]
    ring
  · simp only [AUCMetric.step, if_neg h]
    ring

/-- Over the whole sweep, sum_pos + cur_pos counts the positive labels. -/
theorem AUCMetric.foldl_sum_cur (l : List (α × α)) (s : AUCState α) :
    (l.foldl AUCMetric.step s).sum_pos + (l.foldl AUCMetric.step s).cur_pos =
      s.sum_pos + s.cur_pos + (l.map (fun p => if 0 < p.2 then (1 : α) else 0)).sum := by
  induction l generalizing s with
  | nil => simp
  | cons p l ih =>
      rw [List.foldl_cons, ih, AUCMetric.step_sum_cur]
      simp only [List.map_cons, List.sum_cons]
      ring

/-- Sum of a constant-one map is the length. -/
theorem sum_map_one {β : Type} (l : List β) :
    (l.map (fun _ => (1 : α))).sum = (l.length : α) := by
  induction l with
  | nil => simp
  | cons p l ih =>
      simp only [List.map_cons, List.sum_cons, List.length_cons, ih]
      push_cast
      ring

/-- A pair list with no positive label yields AUC exactly 1. -/
theorem AUCMetric.sweep_no_pos (sorted : List (α × α)) (sw first_score : α)
    (h : ∀ p ∈ sorted, p.2 ≤ 0) :
    AUCMetric.EvalSweep (fun s0 => sorted.foldl AUCMetric.step s0) sw first_score = [1] := by
  have hmap : (sorted.map (fun p => if 0 < p.2 then (1 : α) else 0)) =
      sorted.map (fun _ => (0 : α)) :=
    List.map_congr_left fun p hp => if_neg (not_lt.mpr (h p hp))
  have hS : (sorted.foldl AUCMetric.step ⟨0, 0, 0, 0, first_score⟩).sum_pos +
      (sorted.foldl AUCMetric.step ⟨0, 0, 0, 0, first_score⟩).cur_pos = 0 := by
    rw [AUCMetric.foldl_sum_cur, hmap]
    simp
  simp only [AUCMetric.EvalSweep, hS]
  simp

/-- A nonempty pair list with only positive labels and weight sum equal to
its length yields AUC exactly 1. -/
theorem AUCMetric.sweep_all_pos (sorted : List (α × α)) (sw first_score : α)
    (h : ∀ p ∈ sorted, 0 < p.2) (hsw : (sorted.length : α) = sw) :
    AUCMetric.EvalSweep (fun s0 => sorted.foldl AUCMetric.step s0) sw first_score = [1] := by
  have hmap : (sorted.map (fun p => if 0 < p.2 then (1 : α) else 0)) =
      sorted.map (fun _ => (1 : α)) :=
    List.map_congr_left fun p hp => if_pos (h p hp)
  have hone : (sorted.map (fun _ => (1 : α))).sum = (sorted.length : α) :=
    sum_map_one sorted
  have hS : (sorted.foldl AUCMetric.step ⟨0, 0, 0, 0, first_score⟩).sum_pos +
      (sorted.foldl AUCMetric.step ⟨0, 0, 0, 0, first_score⟩).cur_pos = sw := by
    rw [AUCMetric.foldl_sum_cur, hmap, hone, ← hsw]
    ring
  simp only [AUCMetric.EvalSweep, hS]
  simp

/-- Claim C9: on every unweighted input whose labels are all of one class
(no positive label, or no non-positive label), AUCMetric::Eval returns
exactly 1. -/
theorem C9_auc_single_class_is_one (label score : List α)
    (hlen : score.length = label.length)
    (h : (∀ la ∈ label, la ≤ 0) ∨ (∀ la ∈ label, 0 < la)) :
    AUCMetric.Eval (AUCMetric.Init label none) score = [1] := by
  have hmem : ∀ p ∈ (score.zip label).mergeSort (fun a b => decide (b.1 ≤ a.1)),
      p.2 ∈ label := by
    intro p hp
    obtain ⟨ps, pl⟩ := p
    exact (List.of_mem_zip (List.mem_mergeSort.mp hp)).2
  have heq : AUCMetric.Eval (AUCMetric.Init label none) score =
      AUCMetric.EvalSweep
        (fun s0 => ((score.zip label).mergeSort
          (fun a b => decide (b.1 ≤ a.1))).foldl AUCMetric.step s0)
        ((label.length : α))
        (match (score.zip label).mergeSort (fun a b => decide (b.1 ≤ a.1)) with
          | [] => 0
          | p :: _ => p.1) := rfl
  rw [heq]
  rcases h with hneg | hpos
  · exact AUCMetric.sweep_no_pos _ _ _ fun p hp => hneg p.2 (hmem p hp)
  · apply AUCMetric.sweep_all_pos _ _ _ fun p hp => hpos p.2 (hmem p hp)
    rw [List.length_mergeSort, List.length_zip, hlen, min_self]

/-- Witness for C9 at a two-point all-positive rational input. -/
theorem C9_auc_single_class_witness :
    ([(0 : ℚ), 1].length = [(1 : ℚ), 2].length ∧ ∀ la ∈ [(1 : ℚ), 2], 0 < la) ∧
      AUCMetric.Eval (AUCMetric.Init [(1 : ℚ), 2] none) [0, 1] = [1] :=
  ⟨⟨by decide, by decide⟩,
    C9_auc_single_class_is_one [(1 : ℚ), 2] [0, 1] (by decide) (Or.inr (by decide))⟩

/-- Kernel families of the covariance engine named in the specification. -/
inductive KernelType where
  | exponential
  | squaredExponential

/-- Modelled from the spec: the kernel covariance value (the source of the
CovarianceComponent code is not part of the excerpt): marginal variance
times a monotone-decreasing function of the scaled distance, exp(-d/rho)
for the exponential kernel and exp(-(d/rho)^2) for the squared-exponential
kernel. -/
noncomputable def kernelValue (kt : KernelType) (sigma21 rho d : ℝ) : ℝ :=
  match kt with
  | KernelType.exponential => sigma21 * Real.exp (-(d / rho))
  | KernelType.squaredExponential => sigma21 * Real.exp (-((d / rho) ^ 2))

/-- Modelled from the spec: BuildCovariance of a kernel CovarianceComponent:
the matrix with entries Cov[i,j] = sigma21 * k(dist(s i, s j) / rho) over
the n input locations. -/
noncomputable def CovarianceComponent.BuildCovariance {n : ℕ} {E : Type}
    [PseudoMetricSpace E] (kt : KernelType) (sigma21 rho : ℝ) (s : Fin n → E) :
    Matrix (Fin n) (Fin n) ℝ :=
  Matrix.of fun i j => kernelValue kt sigma21 rho (dist (s i) (s j))

/-- Claim C5: for every pair of inputs and valid parameters sigma21 > 0,
rho > 0, the exponential-kernel covariance entry is
sigma21 * exp(-(d/rho)) and the squared-exponential entry is
sigma21 * exp(-((d/rho)^2)), with d the distance between the inputs. -/
theorem C5_kernel_covariance_entries {n : ℕ} {E : Type} [PseudoMetricSpace E]
    (sigma21 rho : ℝ) (h1 : 0 < sigma21) (h2 : 0 < rho)
    (s : Fin n → E) (i j : Fin n) :
    CovarianceComponent.BuildCovariance KernelType.exponential sigma21 rho s i j
        = sigma21 * Real.exp (-(dist (s i) (s j) / rho)) ∧
      CovarianceComponent.BuildCovariance KernelType.squaredExponential sigma21 rho s i j
        = sigma21 * Real.exp (-((dist (s i) (s j) / rho) ^ 2)) :=
  ⟨rfl, rfl⟩

/-- Witness for C5 at a one-point configuration with unit parameters. -/
theorem C5_kernel_covariance_entries_witness :
    (0 : ℝ) < 1 ∧ (0 : ℝ) < 1 ∧
      (CovarianceComponent.BuildCovariance KernelType.exponential 1 1
          (fun _ : Fin 1 => (0 : ℝ)) 0 0
          = 1 * Real.exp (-(dist (0 : ℝ) 0 / 1)) ∧
        CovarianceComponent.BuildCovariance KernelType.squaredExponential 1 1
          (fun _ : Fin 1 => (0 : ℝ)) 0 0
          = 1 * Real.exp (-((dist (0 : ℝ) 0 / 1) ^ 2))) :=
  ⟨by norm_num, by norm_num,
    C5_kernel_covariance_entries 1 1 (by norm_num) (by norm_num) (fun _ => 0) 0 0⟩

/-- Error kinds of the covariance engine listed in the specification. -/
inductive GPErrorKind where
  | InvalidParameter
  | FactorizationFailure
  | ConfigurationConflict
deriving DecidableEq

/-- Modelled from the spec: a validated kernel component record. -/
structure KernelComponent (n : ℕ) (E : Type) where
  kt : KernelType
  sigma21 : ℝ
  rho : ℝ
  coords : Fin n → E

/-- Modelled from the spec: a validated grouped component record holding the
grouping key (one level index per sample). -/
structure GroupedComponent where
  groups : List ℕ

/-- Modelled from the spec: kernel-component construction rejects a
non-positive range rho (and a non-positive marginal variance) with
InvalidParameter; no component is produced on the error path. -/
noncomputable def mkKernelComponent {n : ℕ} {E : Type} (kt : KernelType)
    (sigma21 rho : ℝ) (coords : Fin n → E) :
    Except GPErrorKind (KernelComponent n E) :=
  if rho ≤ 0 then Except.error GPErrorKind.InvalidParameter
  else if sigma21 ≤ 0 then Except.error GPErrorKind.InvalidParameter
  else Except.ok ⟨kt, sigma21, rho, coords⟩

/-- Modelled from the spec: grouped-component construction rejects a grouping
key with fewer than 2 distinct levels with InvalidParameter. -/
def mkGroupedComponent (groups : List ℕ) : Except GPErrorKind GroupedComponent :=
  if groups.dedup.length < 2 then Except.error GPErrorKind.InvalidParameter
  else Except.ok ⟨groups⟩

/-- Claim C8: constructing a kernel component with rho ≤ 0, or a grouped
component whose key has fewer than 2 distinct levels, fails with a fatal
InvalidParameter error and produces no component. -/
theorem C8_invalid_construction_rejected {n : ℕ} {E : Type} (kt : KernelType)
    (sigma21 rho : ℝ) (coords : Fin n → E) (hrho : rho ≤ 0)
    (groups : List ℕ) (hg : groups.dedup.length < 2) :
    mkKernelComponent kt sigma21 rho coords = Except.error GPErrorKind.InvalidParameter ∧
      mkGroupedComponent groups = Except.error GPErrorKind.InvalidParameter := by
  constructor
  · simp [mkKernelComponent, hrho]
  · simp [mkGroupedComponent, hg]

/-- Witness for C8 with rho = -1 and a single-level grouping key. -/
theorem C8_invalid_construction_rejected_witness :
    ((-1 : ℝ) ≤ 0 ∧ ([0, 0] : List ℕ).dedup.length < 2) ∧
      (mkKernelComponent KernelType.exponential 1 (-1) (fun _ : Fin 1 => (0 : ℝ))
          = Except.error GPErrorKind.InvalidParameter ∧
        mkGroupedComponent [0, 0] = Except.error GPErrorKind.InvalidParameter) :=
  ⟨⟨by norm_num, by decide⟩,
    C8_invalid_construction_rejected KernelType.exponential 1 (-1)
      (fun _ => 0) (by norm_num) [0, 0] (by decide)⟩

/-- Modelled from the spec: the structured prediction output: fixed-effect
(tree) prediction, random-effect posterior mean, and the optional posterior
covariance, kept as separate fields. -/
structure PredictionResult (np : ℕ) where
  fixed_effect : Fin np → ℝ
  random_effect_mean : Fin np → ℝ
  random_effect_cov : Option (Matrix (Fin np) (Fin np) ℝ)

/-- Modelled from the spec: the prediction composer sums the fixed-effect
prediction and the random-effect posterior mean into one point prediction. -/
def PredictionResult.pointPrediction {np : ℕ} (r : PredictionResult np) :
    Fin np → ℝ :=
  fun i => r.fixed_effect i + r.random_effect_mean i

/-- Modelled from the spec: REModel prediction at new inputs (the REModel
source is not part of the excerpt): the posterior mean is the
cross-covariance between new and training points times the inverse of the
assembled training covariance times the training residual, and, only when
predictCovariance is set, the posterior covariance is the prior covariance
at the new points minus cross · inverse · crossᵗ; SigmaInv is the inverse
supplied by the factorization engine. -/
def REModel.PredictPosterior {np n : ℕ} (crossCov : Matrix (Fin np) (Fin n) ℝ)
    (priorCov : Matrix (Fin np) (Fin np) ℝ) (SigmaInv : Matrix (Fin n) (Fin n) ℝ)
    (residual : Fin n → ℝ) (fixed : Fin np → ℝ) (predictCovariance : Bool) :
    PredictionResult np :=
  ⟨fixed, (crossCov * SigmaInv).mulVec residual,
    if predictCovariance then
      some (priorCov - crossCov * SigmaInv * crossCov.transpose)
    else
      none⟩

/-- Claim C4: every prediction returns the conditional-Gaussian posterior
mean of the random effect; the posterior covariance is present exactly when
the predictCovariance flag is set; the fixed-effect prediction is exposed
separately; and the combined point prediction is the sum of the two. -/
theorem C4_predict_posterior_mean_and_gated_covariance {np n : ℕ}
    (crossCov : Matrix (Fin np) (Fin n) ℝ) (priorCov : Matrix (Fin np) (Fin np) ℝ)
    (SigmaInv : Matrix (Fin n) (Fin n) ℝ) (residual : Fin n → ℝ)
    (fixed : Fin np → ℝ) (predictCovariance : Bool) :
    (REModel.PredictPosterior crossCov priorCov SigmaInv residual fixed
        predictCovariance).random_effect_mean
        = (crossCov * SigmaInv).mulVec residual ∧
      (REModel.PredictPosterior crossCov priorCov SigmaInv residual fixed
        predictCovariance).random_effect_cov
        = (if predictCovariance then
            some (priorCov - crossCov * SigmaInv * crossCov.transpose)
          else none) ∧
      (REModel.PredictPosterior crossCov priorCov SigmaInv residual fixed
        predictCovariance).fixed_effect = fixed ∧
      (REModel.PredictPosterior crossCov priorCov SigmaInv residual fixed
        predictCovariance).pointPrediction
        = fun i => fixed i + (crossCov * SigmaInv).mulVec residual i :=
  ⟨rfl, rfl, rfl, rfl⟩

/-- Modelled from the spec: one assembled random-effect term: an incidence
matrix Z mapping the n samples to m effect levels together with the level
covariance produced by the component. -/
structure AssembledComponent (n : ℕ) where
  m : ℕ
  Z : Matrix (Fin n) (Fin m) ℝ
  Cov : Matrix (Fin m) (Fin m) ℝ

/-- Modelled from the spec: the contribution Z Cov Zᵗ of one component to
the total covariance. -/
def AssembledComponent.contribution {n : ℕ} (c : AssembledComponent n) :
    Matrix (Fin n) (Fin n) ℝ :=
  c.Z * c.Cov * c.Z.transpose

/-- Modelled from the spec: Assemble of the CompositeCovarianceModel: total
covariance Sigma(theta) = sum over components of Z_k Cov_k Z_kᵗ plus the
error variance sigma2 I. -/
noncomputable def CompositeCovarianceModel.Assemble {n : ℕ}
    (components : List (AssembledComponent n)) (sigma2 : ℝ) :
    Matrix (Fin n) (Fin n) ℝ :=
  (components.map AssembledComponent.contribution).sum
    + sigma2 • (1 : Matrix (Fin n) (Fin n) ℝ)

/-- Modelled from the spec: the assembled form of a kernel component: dense
kernel covariance over the n training points with identity incidence. -/
noncomputable def kernelAssembled {n : ℕ} {E : Type} [PseudoMetricSpace E]
    (kt : KernelType) (sigma21 rho : ℝ) (s : Fin n → E) : AssembledComponent n :=
  ⟨n, 1, CovarianceComponent.BuildCovariance kt sigma21 rho s⟩

/-- Modelled from the spec: the assembled form of a grouped component: 0/1
incidence from samples to the m levels and level covariance sigma2g I
(diagonal per distinct level, scaled by the component variance). -/
noncomputable def groupedAssembled {n : ℕ} (m : ℕ) (g : Fin n → Fin m)
    (sigma2g : ℝ) : AssembledComponent n :=
  ⟨m, Matrix.of fun i j => if g i = j then 1 else 0, sigma2g • 1⟩

/-- Claim C7: for a composite model holding one kernel component and one
grouped component with independent structures, Assemble returns exactly
Z₁ Cov₁ Z₁ᵗ + Z₂ Cov₂ Z₂ᵗ + sigma2 I, the sum of the individually assembled
component covariances plus the error variance. -/
theorem C7_assemble_is_additive {n : ℕ} {E : Type} [PseudoMetricSpace E]
    (kt : KernelType) (sigma21 rho : ℝ) (s : Fin n → E)
    (m : ℕ) (g : Fin n → Fin m) (sigma2g sigma2 : ℝ) :
    CompositeCovarianceModel.Assemble
        [kernelAssembled kt sigma21 rho s, groupedAssembled m g sigma2g] sigma2 =
      (kernelAssembled kt sigma21 rho s).Z * (kernelAssembled kt sigma21 rho s).Cov
          * ((kernelAssembled kt sigma21 rho s).Z).transpose
        + (groupedAssembled m g sigma2g).Z * (groupedAssembled m g sigma2g).Cov
          * ((groupedAssembled m g sigma2g).Z).transpose
        + sigma2 • 1 := by
  simp only [CompositeCovarianceModel.Assemble, List.map_cons, List.map_nil,
    List.sum_cons, List.sum_nil, add_zero, AssembledComponent.contribution]


/-- Status of a covariance optimizer run, following the state machine of the
specification. -/
inductive OptStatus where
  | Iterate
  | Converged
  | MaxIterReached
  | Diverged
deriving DecidableEq

/-- Modelled from the spec: optimizer state: the current hyperparameter
vector theta (always the last value whose evaluation succeeded and was
accepted), its log-likelihood, the count of consecutive factorization
failures, and the run status; Diverged is a recorded diagnostic on a
normally returned state (a non-fatal warning), not an exception. -/
structure OptimizerState where
  theta : List ℝ
  loglik : ℝ
  consecutiveFailures : ℕ
  status : OptStatus

/-- Modelled from the spec: outcome of one iterating optimizer step given
the result of evaluating a proposed move (none when the factorization of
the proposed covariance fails).  Factorization failure increments the
consecutive-failure count and turns into Diverged after maxConsecFail
consecutive failures, keeping theta; a log-likelihood decrease beyond
divTol turns into Diverged keeping theta; an accepted step installs the
proposed theta and converges when the log-likelihood change is within
convTol. -/
noncomputable def CovarianceOptimizer.stepIterate (divTol convTol : ℝ)
    (maxConsecFail : ℕ) (res : Option (List ℝ × ℝ)) (s : OptimizerState) :
    OptimizerState :=
  match res with
  | none =>
      if maxConsecFail ≤ s.consecutiveFailures + 1 then
        ⟨s.theta, s.loglik, s.consecutiveFailures + 1, OptStatus.Diverged⟩
      else
        ⟨s.theta, s.loglik, s.consecutiveFailures + 1, OptStatus.Iterate⟩
  | some (theta2, ll2) =>
      if ll2 < s.loglik - divTol then
        ⟨s.theta, s.loglik, 0, OptStatus.Diverged⟩
      else if |ll2 - s.loglik| ≤ convTol then
        ⟨theta2, ll2, 0, OptStatus.Converged⟩
      else
        ⟨theta2, ll2, 0, OptStatus.Iterate⟩

/-- Modelled from the spec: one optimizer iteration: in the Iterate state the
proposed step is evaluated at the current theta by the abstract evaluation
evalStep and handled by stepIterate; terminal states are left unchanged. -/
noncomputable def CovarianceOptimizer.step (divTol convTol : ℝ)
    (maxConsecFail : ℕ) (evalStep : List ℝ → Option (List ℝ × ℝ))
    (s : OptimizerState) : OptimizerState :=
  match s.status with
  | OptStatus.Iterate =>
      CovarianceOptimizer.stepIterate divTol convTol maxConsecFail (evalStep s.theta) s
  | _ => s

/-- Modelled from the spec: after the iteration budget, a state that is
still iterating is reported as MaxIterReached; terminal states pass
through. -/
noncomputable def CovarianceOptimizer.finalize (s : OptimizerState) : OptimizerState :=
  match s.status with
  | OptStatus.Iterate => ⟨s.theta, s.loglik, s.consecutiveFailures,
      OptStatus.MaxIterReached⟩
  | _ => s

/-- Modelled from the spec: a full optimizer run: at most maxIter iterations
from the initial state, reporting MaxIterReached when the iteration budget
ends while still iterating. -/
noncomputable def CovarianceOptimizer.run (divTol convTol : ℝ)
    (maxConsecFail maxIter : ℕ) (evalStep : List ℝ → Option (List ℝ × ℝ))
    (init : OptimizerState) : OptimizerState :=
  CovarianceOptimizer.finalize ((List.range maxIter).foldl
    (fun s _ => CovarianceOptimizer.step divTol convTol maxConsecFail evalStep s) init)

/-- Finalizing the run does not change theta. -/
theorem CovarianceOptimizer.finalize_theta (s : OptimizerState) :
    (CovarianceOptimizer.finalize s).theta = s.theta := by
  obtain ⟨θ, ll, cf, st⟩ := s
  cases st <;> rfl

/-- An iterating step only installs a theta produced by a successful
evaluation. -/
theorem CovarianceOptimizer.stepIterate_valid (divTol convTol : ℝ)
    (maxConsecFail : ℕ) (res : Option (List ℝ × ℝ)) (s : OptimizerState)
    (P : List ℝ → Prop) (hs : P s.theta)
    (hres : ∀ θ2 ll2, res = some (θ2, ll2) → P θ2) :
    P (CovarianceOptimizer.stepIterate divTol convTol maxConsecFail res s).theta := by
  cases res with
  | none =>
      by_cases hf : maxConsecFail ≤ s.consecutiveFailures + 1
      · simp only [CovarianceOptimizer.stepIterate, if_pos hf]
        exact hs
      · simp only [CovarianceOptimizer.stepIterate, if_neg hf]
        exact hs
  | some p =>
      obtain ⟨theta2, ll2⟩ := p
      have hp2 : P theta2 := hres theta2 ll2 rfl
      by_cases h1 : ll2 < s.loglik - divTol
      · simp only [CovarianceOptimizer.stepIterate, if_pos h1]
        exact hs
      · by_cases h2 : |ll2 - s.loglik| ≤ convTol
        · simp only [CovarianceOptimizer.stepIterate, if_neg h1, if_pos h2]
          exact hp2
        · simp only [CovarianceOptimizer.stepIterate, if_neg h1, if_neg h2]
          exact hp2

/-- One optimizer step preserves any validity invariant of theta that holds
for all successfully evaluated proposals. -/
theorem CovarianceOptimizer.step_valid (divTol convTol : ℝ)
    (maxConsecFail : ℕ) (evalStep : List ℝ → Option (List ℝ × ℝ))
    (P : List ℝ → Prop)
    (hstep : ∀ θ θ2 ll2, evalStep θ = some (θ2, ll2) → P θ2)
    (s : OptimizerState) (hs : P s.theta) :
    P (CovarianceOptimizer.step divTol convTol maxConsecFail evalStep s).theta := by
  obtain ⟨θ, ll, cf, st⟩ := s
  cases st
  case Iterate =>
    exact CovarianceOptimizer.stepIterate_valid divTol convTol maxConsecFail
      (evalStep θ) ⟨θ, ll, cf, OptStatus.Iterate⟩ P hs
      (fun θ2 ll2 h => hstep θ θ2 ll2 h)
  case Converged => exact hs
  case MaxIterReached => exact hs
  case Diverged => exact hs

/-- When an iterating step enters the Diverged state, theta is retained. -/
theorem CovarianceOptimizer.stepIterate_diverged_keeps_theta (divTol convTol : ℝ)
    (maxConsecFail : ℕ) (res : Option (List ℝ × ℝ)) (s : OptimizerState)
    (h : (CovarianceOptimizer.stepIterate divTol convTol maxConsecFail res s).status
      = OptStatus.Diverged) :
    (CovarianceOptimizer.stepIterate divTol convTol maxConsecFail res s).theta
      = s.theta := by
  cases res with
  | none =>
      by_cases hf : maxConsecFail ≤ s.consecutiveFailures + 1
      · simp only [CovarianceOptimizer.stepIterate, if_pos hf]
      · simp only [CovarianceOptimizer.stepIterate, if_neg hf]
  | some p =>
      obtain ⟨theta2, ll2⟩ := p
      by_cases h1 : ll2 < s.loglik - divTol
      · simp only [CovarianceOptimizer.stepIterate, if_pos h1]
      · by_cases h2 : |ll2 - s.loglik| ≤ convTol
        · exfalso
          simp only [CovarianceOptimizer.stepIterate, if_neg h1, if_pos h2] at h
          exact OptStatus.noConfusion h
        · exfalso
          simp only [CovarianceOptimizer.stepIterate, if_neg h1, if_neg h2] at h
          exact OptStatus.noConfusion h

/-- Claim C6: when the optimizer ends in the Diverged state (likelihood
decrease beyond tolerance, or factorization failing maxConsecFail
consecutive iterations), the run returns normally (a state carrying the
Diverged diagnostic, not an exception), the theta it holds satisfies any
validity invariant holding at the start and preserved by successful
evaluations (so no NaN or invalid parameters reach the caller), and the
step entering the Diverged state leaves theta at the last valid value. -/
theorem C6_diverged_run_keeps_last_valid_theta (divTol convTol : ℝ)
    (maxConsecFail maxIter : ℕ) (evalStep : List ℝ → Option (List ℝ × ℝ))
    (P : List ℝ → Prop) (init : OptimizerState)
    (hinit : P init.theta)
    (hstep : ∀ θ θ2 ll2, evalStep θ = some (θ2, ll2) → P θ2) :
    P (CovarianceOptimizer.run divTol convTol maxConsecFail maxIter evalStep
        init).theta ∧
      (∀ s : OptimizerState, s.status = OptStatus.Iterate →
        (CovarianceOptimizer.step divTol convTol maxConsecFail evalStep s).status
            = OptStatus.Diverged →
        (CovarianceOptimizer.step divTol convTol maxConsecFail evalStep s).theta
            = s.theta) := by
  constructor
  · have hfold : ∀ (l : List ℕ) (s : OptimizerState), P s.theta →
        P ((l.foldl
          (fun s _ => CovarianceOptimizer.step divTol convTol maxConsecFail evalStep s)
          s).theta) := by
      intro l
      induction l with
      | nil => intro s hs; exact hs
      | cons a l ih =>
          intro s hs
          exact ih _ (CovarianceOptimizer.step_valid divTol convTol
            maxConsecFail evalStep P hstep s hs)
    have hbase := hfold (List.range maxIter) init hinit
    unfold CovarianceOptimizer.run
    rw [CovarianceOptimizer.finalize_theta]
    exact hbase
  · intro s hs
    have hred : CovarianceOptimizer.step divTol convTol maxConsecFail evalStep s =
        CovarianceOptimizer.stepIterate divTol convTol maxConsecFail
          (evalStep s.theta) s := by
      unfold CovarianceOptimizer.step
      rw [hs]
    rw [hred]
    exact CovarianceOptimizer.stepIterate_diverged_keeps_theta divTol convTol
      maxConsecFail (evalStep s.theta) s

/-- Witness for C6 with an always-failing evaluation from a valid initial
theta. -/
theorem C6_diverged_run_keeps_last_valid_theta_witness :
    ((fun t => t = [(1 : ℝ)]) (OptimizerState.mk [(1 : ℝ)] 0 0 OptStatus.Iterate).theta) ∧
      ((fun t => t = [(1 : ℝ)])
          ((CovarianceOptimizer.run 1 0 1 3 (fun _ => none)
            (OptimizerState.mk [(1 : ℝ)] 0 0 OptStatus.Iterate)).theta) ∧
        (∀ s : OptimizerState, s.status = OptStatus.Iterate →
          (CovarianceOptimizer.step 1 0 1 (fun _ => none) s).status
              = OptStatus.Diverged →
          (CovarianceOptimizer.step 1 0 1 (fun _ => none) s).theta = s.theta)) :=
  ⟨rfl, C6_diverged_run_keeps_last_valid_theta 1 0 1 3 (fun _ => none)
    (fun t => t = [(1 : ℝ)]) (OptimizerState.mk [(1 : ℝ)] 0 0 OptStatus.Iterate)
    rfl (fun _ _ _ h => Option.noConfusion h)⟩
